import Mathlib

/-!
Verification of `rofi-bookmarks.py` (a rofi mode listing Firefox bookmarks).

This file is a shallow embedding of the script's pure logic:

* machine integers are modelled as `Nat` with explicit reduction modulo `2 ^ 32`
  where the source (SHA-256) relies on 32-bit wraparound;
* Python `bytes` values are `List Nat` (one entry per byte);
* Python values that may be `None` (bookmark titles, urls, icon blobs) are
  `Option _`;
* the filesystem touched by the icon cache is an explicit record threaded
  through the functions;
* exceptions are explicit: functions that can raise return `Except` or report
  an `Option PyErr`.

Database rows are taken as input lists: the SQL engine itself is an external
collaborator, the script consumes `fetchall()` results, and those results are
what the embedded functions receive.
-/

namespace RofiBookmarks

/-- Python exceptions that the listing code can raise.
`runtimeError` is the PEP 479 conversion of a `StopIteration` escaping a
generator expression, `typeError` is `str.join` applied to a `None` item,
`keyError` is a missing dictionary key, and `noFuel` stands for a walk that
does not terminate (a cycle in the parent pointers). -/
inductive PyErr where
  | runtimeError
  | typeError
  | keyError
  | noFuel
deriving DecidableEq, Repr

/-- One row of the `conn_res` list produced by the bookmarks query:
`(moz_bookmarks.id, moz_bookmarks.parent, moz_bookmarks.type,
moz_bookmarks.title, moz_places.url)`.  Title and url may be SQL NULL. -/
structure Row where
  id : Int
  parent : Int
  type : Int
  title : Option String
  url : Option String
deriving DecidableEq, Repr

/-- The part of the filesystem the icon cache touches: whether the cache
directory exists, and the files (path, byte content) under it. -/
structure FS where
  cacheDirExists : Bool
  files : List (String × List Nat)
deriving DecidableEq, Repr

/-! ## SHA-256 (`hashlib.sha256(icon).hexdigest()`)

A direct functional implementation over byte lists, with all 32-bit arithmetic
written as `Nat` operations reduced modulo `2 ^ 32`. -/

/-- Reduce to a 32-bit word. -/
def w32 (x : Nat) : Nat := x % 4294967296

/-- Right rotation of a 32-bit word. -/
def rotr (n x : Nat) : Nat := w32 ((x >>> n) ||| (x <<< (32 - n)))

def sig0 (x : Nat) : Nat := (rotr 7 x) ^^^ (rotr 18 x) ^^^ (x >>> 3)

def sig1 (x : Nat) : Nat := (rotr 17 x) ^^^ (rotr 19 x) ^^^ (x >>> 10)

def bigSig0 (x : Nat) : Nat := (rotr 2 x) ^^^ (rotr 13 x) ^^^ (rotr 22 x)

def bigSig1 (x : Nat) : Nat := (rotr 6 x) ^^^ (rotr 11 x) ^^^ (rotr 25 x)

/-- The 64 SHA-256 round constants. -/
def shaK : List Nat :=
  [1116352408, 1899447441, 3049323471, 3921009573, 961987163,
   1508970993, 2453635748, 2870763221, 3624381080, 310598401,
   607225278, 1426881987, 1925078388, 2162078206, 2614888103,
   3248222580, 3835390401, 4022224774, 264347078, 604807628,
   770255983, 1249150122, 1555081692, 1996064986, 2554220882,
   2821834349, 2952996808, 3210313671, 3336571891, 3584528711,
   113926993, 338241895, 666307205, 773529912, 1294757372,
   1396182291, 1695183700, 1986661051, 2177026350, 2456956037,
   2730485921, 2820302411, 3259730800, 3345764771, 3516065817,
   3600352804, 4094571909, 275423344, 430227734, 506948616,
   659060556, 883997877, 958139571, 1322822218, 1537002063,
   1747873779, 1955562222, 2024104815, 2227730452, 2361852424,
   2428436474, 2756734187, 3204031479, 3329325298]

/-- Initial SHA-256 hash state. -/
def shaH0 : List Nat :=
  [1779033703, 3144134277, 1013904242, 2773480762, 1359893119,
   2600822924, 528734635, 1541459225]

/-- `k` bytes of `x` in big-endian order. -/
def beBytes : Nat → Nat → List Nat
  | 0, _ => []
  | k + 1, x => beBytes k (x / 256) ++ [x % 256]

/-- SHA-256 padding: append `0x80`, zeros to 56 mod 64, then the bit length
as 8 big-endian bytes. -/
def padMsg (m : List Nat) : List Nat :=
  m ++ [128] ++ List.replicate ((119 - m.length % 64) % 64) 0 ++ beBytes 8 (8 * m.length)

/-- Split into 64-byte blocks (structural recursion on a step counter so the
definition reduces; one block consumes at least one byte, so `l.length` steps
always suffice). -/
def blocks64Go : Nat → List Nat → List (List Nat)
  | 0, _ => []
  | _ + 1, [] => []
  | n + 1, l => l.take 64 :: blocks64Go n (l.drop 64)

/-- Split into 64-byte blocks. -/
def blocks64 (l : List Nat) : List (List Nat) := blocks64Go l.length l

/-- Big-endian 32-bit words from a byte block. -/
def toWords : List Nat → List Nat
  | b0 :: b1 :: b2 :: b3 :: rest => (((b0 * 256 + b1) * 256 + b2) * 256 + b3) :: toWords rest
  | _ => []

/-- Extend the 16-word schedule by `n` further words. -/
def extendW : Nat → List Nat → List Nat
  | 0, w => w
  | n + 1, w =>
    let i := w.length
    let nw := w32 (w.getD (i - 16) 0 + sig0 (w.getD (i - 15) 0) + w.getD (i - 7) 0
                   + sig1 (w.getD (i - 2) 0))
    extendW n (w ++ [nw])

/-- Working state of the compression function. -/
structure H8 where
  a : Nat
  b : Nat
  c : Nat
  d : Nat
  e : Nat
  f : Nat
  g : Nat
  h : Nat
deriving DecidableEq, Repr

/-- One SHA-256 round. -/
def shaRound (s : H8) (kw : Nat × Nat) : H8 :=
  let ch := (s.e &&& s.f) ^^^ ((4294967295 ^^^ s.e) &&& s.g)
  let t1 := w32 (s.h + bigSig1 s.e + ch + kw.1 + kw.2)
  let maj := (s.a &&& s.b) ^^^ (s.a &&& s.c) ^^^ (s.b &&& s.c)
  let t2 := w32 (bigSig0 s.a + maj)
  ⟨w32 (t1 + t2), s.a, s.b, s.c, w32 (s.d + t1), s.e, s.f, s.g⟩

/-- Compress one 64-byte block into the running hash. -/
def shaBlock (hs : List Nat) (block : List Nat) : List Nat :=
  let w := extendW 48 (toWords block)
  let s0 : H8 := ⟨hs.getD 0 0, hs.getD 1 0, hs.getD 2 0, hs.getD 3 0,
                  hs.getD 4 0, hs.getD 5 0, hs.getD 6 0, hs.getD 7 0⟩
  let s := (shaK.zip w).foldl shaRound s0
  [w32 (hs.getD 0 0 + s.a), w32 (hs.getD 1 0 + s.b), w32 (hs.getD 2 0 + s.c),
   w32 (hs.getD 3 0 + s.d), w32 (hs.getD 4 0 + s.e), w32 (hs.getD 5 0 + s.f),
   w32 (hs.getD 6 0 + s.g), w32 (hs.getD 7 0 + s.h)]

def hexDigit (n : Nat) : Char :=
  if n < 10 then Char.ofNat (48 + n) else Char.ofNat (87 + n)

/-- `k` lowercase hex digits of `x`, most significant first. -/
def hexDigits : Nat → Nat → List Char
  | 0, _ => []
  | k + 1, x => hexDigits k (x / 16) ++ [hexDigit (x % 16)]

/-- `hashlib.sha256(m).hexdigest()`. -/
def sha256hex (m : List Nat) : String :=
  String.mk (((padMsg m |> blocks64).foldl shaBlock shaH0).flatMap (hexDigits 8))

/-! ## `cache_icon` -/

/-- Module-level `cache_dir` is `$XDG_CACHE_HOME/rofi-bookmarks`; the cache
root is environment dependent, so functions below take it as the argument
`cd`. -/
def cacheLoc (cd : String) (icon : List Nat) : String := cd ++ "/" ++ sha256hex icon

/-- `cache_icon(icon)`: compute `cache_dir / sha256(icon).hexdigest()`, create
the cache dir if absent, write the bytes if no file exists at that path, and
return the path.  Returns the path together with the updated filesystem. -/
def cache_icon (cd : String) (fs : FS) (icon : List Nat) : String × FS :=
  let loc := cacheLoc cd icon
  let fs1 := if fs.cacheDirExists then fs else { fs with cacheDirExists := true }
  let fs2 := if (fs1.files.lookup loc).isSome then fs1
             else { fs1 with files := (loc, icon) :: fs1.files }
  (loc, fs2)

/-! ## `temp_sqlite`

The context manager copies the (possibly locked) database into a fresh
`NamedTemporaryFile`, opens a sqlite connection on the copy, hands the
connection to the body, and on exit — whether the body returned or raised —
`closing` closes the connection and `NamedTemporaryFile` deletes the file.
Temporary files are modelled by a counter-generated name (`tempfile`
guarantees freshness), open connections by the list of temp names they point
at, and the body by an arbitrary state-passing function that may raise. -/
structure TmpState where
  nextTemp : Nat
  tempFiles : List (Nat × List Nat)
  openConns : List Nat

/-- `temp_sqlite(path)` used as `with temp_sqlite(p) as conn: body`. -/
def temp_sqlite {α : Type} (src : List Nat)
    (body : Nat → TmpState → Except PyErr α × TmpState) (s : TmpState) :
    Except PyErr α × TmpState :=
  let name := s.nextTemp
  let s1 : TmpState := ⟨s.nextTemp + 1, (name, src) :: s.tempFiles, name :: s.openConns⟩
  let (r, s2) := body name s1
  (r, ⟨s2.nextTemp, s2.tempFiles.filter (fun pr => pr.1 != name),
       s2.openConns.filter (fun c => c != name)⟩)

/-! ## Profile locator

`find_profile_directories` scans the filesystem; the scan result is the input
list here, each entry carrying the directory name and its `st_mtime`. -/

/-- ASCII model of `str.lower` on a single character. -/
def pyLowerChar (c : Char) : Char :=
  if c.toNat ≥ 65 ∧ c.toNat ≤ 90 then Char.ofNat (c.toNat + 32) else c

/-- Python `s.lower()`. -/
def pyLower (s : String) : String := String.mk (s.data.map pyLowerChar)

/-- Python `needle in hay` on strings: contiguous substring test. -/
def strContains (hay needle : String) : Bool :=
  hay.data.tails.any (fun t => needle.data.isPrefixOf t)

/-- `'default' in profile_dir.name.lower()`. -/
def hasDefault (name : String) : Bool := strContains (pyLower name) "default"

/-- Python `max(xs, key=f)` over a nonempty list: the first element with the
maximal key (later elements replace the best only when strictly greater). -/
def pyMaxBy {α : Type} (f : α → Int) (best : α) : List α → α
  | [] => best
  | x :: xs => pyMaxBy f (if f best < f x then x else best) xs

/-- `default_profile_path()`: raise if no profiles were discovered, return the
first whose lowercased name contains `"default"`, else the most recently
modified one.  Profiles are `(name, mtime)` pairs in discovery order. -/
def default_profile_path (ps : List (String × Int)) : Except String (String × Int) :=
  match ps with
  | [] => Except.error "No Firefox profiles found in directory structure"
  | p :: rest =>
    match (p :: rest).find? (fun q => hasDefault q.1) with
    | some q => Except.ok q
    | none => Except.ok (pyMaxBy (fun q => q.2) p rest)

/-- The module-level `firefox_dir`. -/
def firefoxDir : String := "~/.var/app/org.mozilla.firefox/.mozilla/firefox"

/-- The `profiles.ini` fallback loop: iterate sections in order; a section
whose `Name` key is missing, or whose `Name` matches but whose `Path` key is
missing, raises `KeyError` inside `suppress(KeyError)` and is skipped.  The
first section with `Name == name` and a `Path` yields that path. -/
def iniFind (sections : List (List (String × String))) (name : String) : Option String :=
  sections.findSome? (fun sec =>
    match sec.lookup "Name" with
    | some n => if n = name then sec.lookup "Path" else none
    | none => none)

/-- `path_from_name(name)`: exact directory-name match first, then
case-insensitive substring match (query inside the directory name), then the
`profiles.ini` fallback (`ini = none` models an unreadable registry, whose
exception the bare `except` swallows); raise if all three fail.  Returns the
resolved directory path. -/
def path_from_name (ps : List (String × Int))
    (ini : Option (List (List (String × String)))) (name : String) :
    Except String String :=
  match ps.find? (fun p => p.1 == name) with
  | some p => Except.ok (firefoxDir ++ "/" ++ p.1)
  | none =>
    match ps.find? (fun p => strContains (pyLower p.1) (pyLower name)) with
    | some p => Except.ok (firefoxDir ++ "/" ++ p.1)
    | none =>
      match ini.bind (fun ss => iniFind ss name) with
      | some rel => Except.ok (firefoxDir ++ "/" ++ rel)
      | none => Except.error ("No profile with name " ++ name ++ " found")

/-! ## Bookmark tree extractor

`write_rofi_input` fetches
`SELECT id, parent, type, title, url FROM moz_bookmarks LEFT JOIN moz_places ...`
into `conn_res`, builds `by_id = {i: (title, parent) for i, parent, _, title, _ in conn_res}`
and walks parent pointers with `parent_generator`. -/

/-- The `by_id` dictionary.  A Python dict comprehension keeps the LAST row
for a duplicated key, hence the reversed search. -/
def by_id (rows : List Row) (i : Int) : Option (Option String × Int) :=
  (rows.reverse.find? (fun r => r.id == i)).map (fun r => (r.title, r.parent))

/-- `parent_generator(i)` run to exhaustion:
`while i > 1: title, i = by_id[i]; yield title`.
The first yielded title is the title of the node `i` itself.  A missing key
raises `KeyError`; `fuel` bounds the walk, and running out models a cycle in
the parent pointers (the Python loop would not terminate). -/
def parent_generator (byId : Int → Option (Option String × Int)) :
    Nat → Int → Except PyErr (List (Option String))
  | 0, i => if 1 < i then Except.error PyErr.noFuel else Except.ok []
  | n + 1, i =>
    if 1 < i then
      match byId i with
      | none => Except.error PyErr.keyError
      | some (t, p) => (parent_generator byId n p).map (fun l => t :: l)
    else Except.ok []

/-- The ancestor path as the specification words it (glossary: "ordered
sequence of folder titles from root to a bookmark's immediate parent"): the
walk starts at the node's parent, so the node's own title is not part of it.
This definition follows the spec text and exists to be compared with what the
code computes. -/
def specAncestorPath (byId : Int → Option (Option String × Int)) (fuel : Nat) (i : Int) :
    Option (List (Option String)) :=
  match byId i with
  | none => none
  | some (_, p) =>
    match parent_generator byId fuel p with
    | Except.ok l => some l.reverse
    | Except.error _ => none

/-- A terminating parent-pointer walk: `Chain byId i l` says that starting at
`i` and following parents, the walk reaches an id `≤ 1` after finitely many
hops, yielding the titles `l` (own title first).  It exists exactly for the
acyclic, fully-indexed part of the tree. -/
inductive Chain (byId : Int → Option (Option String × Int)) : Int → List (Option String) → Prop where
  | stop : ∀ i, i ≤ 1 → Chain byId i []
  | step : ∀ i t p l, 1 < i → byId i = some (t, p) → Chain byId p l → Chain byId i (t :: l)

/-! ## Path filter and renderer -/

/-- `all(name == next(path_arr) for name in search_path)` where `path_arr` is
an iterator.  `all` short-circuits on the first mismatch; if the iterator is
exhausted while names remain, the escaping `StopIteration` becomes a
`RuntimeError` (PEP 479).  On success the un-consumed rest of the iterator is
returned (the code joins it into `path`). -/
def consume : List String → List (Option String) → Except PyErr (Bool × List (Option String))
  | [], rest => Except.ok (true, rest)
  | _ :: _, [] => Except.error PyErr.runtimeError
  | name :: names, t :: ts =>
    if some name = t then consume names ts else Except.ok (false, ts)

/-- `sep.join(items)` where items may contain `None`: raises `TypeError` on a
non-string item, otherwise concatenates with the separator between. -/
def pyJoin (sep : String) (l : List (Option String)) : Except PyErr String :=
  if l.any (fun t => t.isNone) then Except.error PyErr.typeError
  else Except.ok (String.intercalate sep (l.filterMap id))

/-- `title if title else "Untitled Bookmark"`: Python treats both `None` and
the empty string as falsy. -/
def displayName : Option String → String
  | none => "Untitled Bookmark"
  | some t => if t = "" then "Untitled Bookmark" else t

/-- Rendering of a possibly-`None` value inside an f-string. -/
def pyStr : Option String → String
  | none => "None"
  | some u => u

/-- The `try/except` around the favicon query: any raise downgrades to no
icon. -/
def recoverLookup (lookup : Option String → Except Unit (Option (List Nat)))
    (u : Option String) : Option (List Nat) :=
  match lookup u with
  | Except.error _ => none
  | Except.ok v => v

/-- Outcome of the loop body of `write_rofi_input` for one row. -/
inductive Outcome where
  | skip : Outcome
  | emit : String → FS → Outcome
  | fail : PyErr → Outcome
deriving DecidableEq, Repr

/-- The loop body of `write_rofi_input` for a single `conn_res` row: skip
non-bookmark rows, walk the parent chain, match the reversed chain against
`search_path`, join the remainder with `sep` (the result is unused but a
`None` item raises), look up the favicon (`lookup` returns the
`max(ic.data)` cell; `favAvail` is `favicons_db.exists()`), cache a truthy
icon blob, and render the line. -/
def processRow (cd : String) (byId : Int → Option (Option String × Int))
    (lookup : Option String → Except Unit (Option (List Nat)))
    (favAvail : Bool) (sp : List String) (sep : String) (fuel : Nat)
    (r : Row) (fs : FS) : Outcome :=
  if r.type = 1 then
    match parent_generator byId fuel r.id with
    | Except.error e => Outcome.fail e
    | Except.ok chain =>
      match consume sp chain.reverse with
      | Except.error e => Outcome.fail e
      | Except.ok (false, _) => Outcome.skip
      | Except.ok (true, rest) =>
        match pyJoin sep rest with
        | Except.error e => Outcome.fail e
        | Except.ok _ =>
          let dn := displayName r.title
          let icon := if favAvail then recoverLookup lookup r.url else none
          match icon with
          | none => Outcome.emit (dn ++ "\x00info\x1f" ++ pyStr r.url) fs
          | some b =>
            if b = [] then Outcome.emit (dn ++ "\x00info\x1f" ++ pyStr r.url) fs
            else
              let pfs := cache_icon cd fs b
              Outcome.emit (dn ++ "\x00info\x1f" ++ pyStr r.url ++ "\x1ficon\x1f" ++ pfs.1) pfs.2
  else Outcome.skip

/-- The loop of `write_rofi_input` over `conn_res`: lines printed so far, the
exception that aborted the loop if any, and the final filesystem. -/
def writeRofiGo (cd : String) (byId : Int → Option (Option String × Int))
    (lookup : Option String → Except Unit (Option (List Nat)))
    (favAvail : Bool) (sp : List String) (sep : String) (fuel : Nat) :
    List Row → FS → List String × Option PyErr × FS
  | [], fs => ([], none, fs)
  | r :: rs, fs =>
    match processRow cd byId lookup favAvail sp sep fuel r fs with
    | Outcome.skip => writeRofiGo cd byId lookup favAvail sp sep fuel rs fs
    | Outcome.fail e => ([], some e, fs)
    | Outcome.emit line fs1 =>
      let res := writeRofiGo cd byId lookup favAvail sp sep fuel rs fs1
      (line :: res.1, res.2.1, res.2.2)

/-- `write_rofi_input(profile_loc, search_path, sep)` after the two databases
have been snapshotted and queried: `rows` is `conn_res`, `lookup` the favicon
query on the favicons connection, `favAvail` is `favicons_db.exists()`.  An
acyclic walk over `rows` visits each id at most once, so `rows.length + 1`
fuel never runs out on acyclic data; on a cycle the fuel exhausts where
Python would loop forever. -/
def write_rofi_input (cd : String)
    (lookup : Option String → Except Unit (Option (List Nat)))
    (favAvail : Bool) (rows : List Row) (sp : List String) (sep : String)
    (fs : FS) : List String × Option PyErr × FS :=
  writeRofiGo cd (by_id rows) lookup favAvail sp sep (rows.length + 1) rows fs

/-! ## CLI path argument -/

/-- Python `str.split('/')` on the character list: splitting on every slash,
keeping empty segments. -/
def pySplit : List Char → List (List Char)
  | [] => [[]]
  | c :: cs =>
    if c = '/' then [] :: pySplit cs
    else
      match pySplit cs with
      | [] => [[c]]
      | s :: ss => (c :: s) :: ss

/-- `search_path = [i for i in args.path.split('/') if i != '']`. -/
def search_path_of (p : String) : List String :=
  ((pySplit p.data).filter (fun s => s ≠ [])).map String.mk

/-! ## Concrete example data (used by counterexamples and witnesses)

The bookmark tree of spec §8: root (id 1) ← folder "Work" (id 10) ←
bookmark "Site" (id 100, url https://example.com). -/

def exRows : List Row :=
  [⟨1, 0, 2, none, none⟩,
   ⟨10, 1, 2, some "Work", none⟩,
   ⟨100, 10, 1, some "Site", some "https://example.com"⟩]

/-- A favicon lookup that always raises. -/
def exFailLookup : Option String → Except Unit (Option (List Nat)) :=
  fun _ => Except.error ()

/-- A favicon lookup that never finds an icon. -/
def exNoneLookup : Option String → Except Unit (Option (List Nat)) :=
  fun _ => Except.ok none

/-- An empty filesystem. -/
def fs0 : FS := ⟨false, []⟩

/-- The bookmark row of `exRows`. -/
def exBm : Row := ⟨100, 10, 1, some "Site", some "https://example.com"⟩

/-! ## Helper lemmas -/

theorem lookup_eq_none_of_forall_ne {β : Type} (k : Nat) :
    ∀ l : List (Nat × β), (∀ pr ∈ l, pr.1 ≠ k) → l.lookup k = none := by
  intro l
  induction l with
  | nil => intro _; rfl
  | cons a as ih =>
    intro h
    have ha : a.1 ≠ k := h a (List.mem_cons_self a as)
    have : (k == a.1) = false := by
      simp only [beq_eq_false_iff_ne, ne_eq]
      exact fun e => ha e.symm
    simp only [List.lookup, this]
    exact ih (fun pr hpr => h pr (List.mem_cons_of_mem a hpr))

theorem lookup_filter_ne {β : Type} (k : Nat) (l : List (Nat × β)) :
    (l.filter (fun pr => pr.1 != k)).lookup k = none := by
  apply lookup_eq_none_of_forall_ne
  intro pr hpr
  have := (List.mem_filter.mp hpr).2
  simpa using this

theorem not_mem_filter_ne (k : Nat) (l : List Nat) :
    k ∉ l.filter (fun c => c != k) := by
  intro h
  have := (List.mem_filter.mp h).2
  simp at this

theorem consume_ok_true (sp : List String) :
    ∀ (l : List (Option String)) (rest : List (Option String)),
      consume sp l = Except.ok (true, rest) ↔
        (l.take sp.length = sp.map some ∧ rest = l.drop sp.length) := by
  induction sp with
  | nil =>
    intro l rest
    constructor
    · intro h
      injection h with h1
      injection h1 with h2 h3
      exact ⟨by simp, by simp [h3]⟩
    · rintro ⟨-, h⟩
      simp only [List.length_nil, List.drop_zero] at h
      subst h
      rfl
  | cons n ns ih =>
    intro l rest
    cases l with
    | nil =>
      constructor
      · intro h; cases h
      · rintro ⟨h, -⟩
        simp only [List.take_nil, List.map_cons] at h
        cases h
    | cons t ts =>
      simp only [consume, List.length_cons, List.take_succ_cons, List.map_cons,
        List.drop_succ_cons]
      by_cases hnt : some n = t
      · rw [if_pos hnt, ih ts rest]
        constructor
        · rintro ⟨h1, h2⟩; exact ⟨by rw [h1, hnt.symm], h2⟩
        · rintro ⟨h1, h2⟩
          injection h1 with e1 e2
          exact ⟨e2, h2⟩
      · rw [if_neg hnt]
        constructor
        · intro h; cases h
        · rintro ⟨h1, -⟩
          injection h1 with e1 e2
          exact absurd e1.symm hnt

theorem consume_error_iff (sp : List String) :
    ∀ l : List (Option String),
      consume sp l = Except.error PyErr.runtimeError ↔
        (l.length < sp.length ∧ l = (sp.take l.length).map some) := by
  induction sp with
  | nil =>
    intro l
    simp only [consume, List.length_nil]
    constructor
    · intro h; cases h
    · rintro ⟨h, -⟩; omega
  | cons n ns ih =>
    intro l
    cases l with
    | nil =>
      constructor
      · intro _
        exact ⟨Nat.succ_pos _, by simp⟩
      · intro _; rfl
    | cons t ts =>
      simp only [consume, List.length_cons, List.take_succ_cons, List.map_cons]
      by_cases hnt : some n = t
      · rw [if_pos hnt, ih ts]
        constructor
        · rintro ⟨h1, h2⟩; exact ⟨Nat.succ_lt_succ h1, by rw [← h2, hnt]⟩
        · rintro ⟨h1, h2⟩
          injection h2 with e1 e2
          exact ⟨Nat.lt_of_succ_lt_succ h1, e2⟩
      · rw [if_neg hnt]
        constructor
        · intro h; cases h
        · rintro ⟨-, h2⟩
          injection h2 with e1 e2
          exact absurd e1.symm hnt

theorem consume_error_name (sp : List String) :
    ∀ (l : List (Option String)) (e : PyErr),
      consume sp l = Except.error e → e = PyErr.runtimeError := by
  induction sp with
  | nil => intro l e h; cases h
  | cons n ns ih =>
    intro l e h
    cases l with
    | nil => cases h; rfl
    | cons t ts =>
      by_cases hnt : some n = t
      · rw [consume, if_pos hnt] at h; exact ih ts e h
      · rw [consume, if_neg hnt] at h; cases h

theorem chain_unique {byId : Int → Option (Option String × Int)} {i : Int}
    {l1 : List (Option String)} (h1 : Chain byId i l1) :
    ∀ l2, Chain byId i l2 → l1 = l2 := by
  induction h1 with
  | stop j hj =>
    intro l2 h2
    cases h2 with
    | stop => rfl
    | step _ _ _ _ hlt => omega
  | step j t p l hlt hb hc ih =>
    intro l2 h2
    cases h2 with
    | stop _ hle => omega
    | step _ t2 p2 l2b _ hb2 hc2 =>
      rw [hb] at hb2
      injection hb2 with e
      injection e with et ep
      subst et; subst ep
      rw [ih l2b hc2]

theorem parent_generator_of_chain {byId : Int → Option (Option String × Int)}
    {i : Int} {l : List (Option String)} (hc : Chain byId i l) :
    ∀ fuel : Nat, l.length ≤ fuel → parent_generator byId fuel i = Except.ok l := by
  induction hc with
  | stop i hi =>
    intro fuel _
    cases fuel with
    | zero => simp only [parent_generator, if_neg (by omega : ¬ 1 < i)]
    | succ n => simp only [parent_generator, if_neg (by omega : ¬ 1 < i)]
  | step i t p l hlt hb hc ih =>
    intro fuel hf
    cases fuel with
    | zero => simp at hf
    | succ n =>
      have hn : l.length ≤ n := by simpa using hf
      simp only [parent_generator, if_pos hlt, hb, ih n hn, Except.map]

theorem pyMaxBy_mem {α : Type} (f : α → Int) :
    ∀ (l : List α) (b : α), pyMaxBy f b l ∈ b :: l := by
  intro l
  induction l with
  | nil => intro b; simp [pyMaxBy]
  | cons x xs ih =>
    intro b
    simp only [pyMaxBy]
    by_cases h : f b < f x
    · rw [if_pos h]
      rcases List.mem_cons.mp (ih x) with h1 | h1
      · rw [h1]; exact List.mem_cons_of_mem _ (List.mem_cons_self _ _)
      · exact List.mem_cons_of_mem _ (List.mem_cons_of_mem _ h1)
    · rw [if_neg h]
      rcases List.mem_cons.mp (ih b) with h1 | h1
      · rw [h1]; exact List.mem_cons_self _ _
      · exact List.mem_cons_of_mem _ (List.mem_cons_of_mem _ h1)

theorem pyMaxBy_ge_seed {α : Type} (f : α → Int) :
    ∀ (l : List α) (b : α), f b ≤ f (pyMaxBy f b l) := by
  intro l
  induction l with
  | nil => intro b; simp [pyMaxBy]
  | cons x xs ih =>
    intro b
    simp only [pyMaxBy]
    by_cases h : f b < f x
    · rw [if_pos h]; exact le_of_lt (lt_of_lt_of_le h (ih x))
    · rw [if_neg h]; exact ih b

theorem pyMaxBy_ge_mem {α : Type} (f : α → Int) :
    ∀ (l : List α) (b : α) (q : α), q ∈ l → f q ≤ f (pyMaxBy f b l) := by
  intro l
  induction l with
  | nil => intro b q hq; cases hq
  | cons x xs ih =>
    intro b q hq
    simp only [pyMaxBy]
    rcases List.mem_cons.mp hq with h1 | h1
    · rw [h1]
      by_cases h : f b < f x
      · rw [if_pos h]; exact pyMaxBy_ge_seed f xs x
      · rw [if_neg h]
        exact le_trans (le_of_not_lt h) (pyMaxBy_ge_seed f xs b)
    · by_cases h : f b < f x
      · rw [if_pos h]; exact ih x q h1
      · rw [if_neg h]; exact ih b q h1

theorem pySplit_ne_nil : ∀ l : List Char, pySplit l ≠ [] := by
  intro l
  induction l with
  | nil => simp [pySplit]
  | cons c cs ih =>
    simp only [pySplit]
    by_cases hc : c = '/'
    · rw [if_pos hc]; simp
    · rw [if_neg hc]
      rcases List.exists_cons_of_ne_nil ih with ⟨s, ss, hss⟩
      rw [hss]
      simp

theorem pySplit_cons_slash (cs : List Char) : pySplit ('/' :: cs) = [] :: pySplit cs := by
  simp [pySplit]

theorem pySplit_cons_other (c : Char) (cs : List Char) (hc : c ≠ '/') :
    pySplit (c :: cs) =
      match pySplit cs with
      | [] => [[c]]
      | s :: ss => (c :: s) :: ss := by
  simp [pySplit, hc]

theorem pySplit_append_slash :
    ∀ a b : List Char, pySplit (a ++ '/' :: b) = pySplit a ++ pySplit b := by
  intro a b
  induction a with
  | nil => rw [List.nil_append, pySplit_cons_slash]; rfl
  | cons c cs ih =>
    by_cases hc : c = '/'
    · subst hc
      rw [List.cons_append, pySplit_cons_slash, ih, pySplit_cons_slash, List.cons_append]
    · rcases List.exists_cons_of_ne_nil (pySplit_ne_nil cs) with ⟨s, ss, hss⟩
      rw [List.cons_append, pySplit_cons_other c _ hc, pySplit_cons_other c _ hc, ih, hss,
        List.cons_append]
      rfl

theorem processRow_emit_shape (cd : String) (byId : Int → Option (Option String × Int))
    (lookup : Option String → Except Unit (Option (List Nat)))
    (favAvail : Bool) (sp : List String) (sep : String) (fuel : Nat)
    (r : Row) (fs : FS) (line : String) (fs1 : FS)
    (h : processRow cd byId lookup favAvail sp sep fuel r fs = Outcome.emit line fs1) :
    r.type = 1 ∧
      (line = displayName r.title ++ "\x00info\x1f" ++ pyStr r.url ∨
       ∃ p, line = displayName r.title ++ "\x00info\x1f" ++ pyStr r.url ++ "\x1ficon\x1f" ++ p) := by
  unfold processRow at h
  split at h
  case isTrue ht =>
    refine ⟨ht, ?_⟩
    split at h
    · cases h
    · split at h
      · cases h
      · cases h
      · split at h
        · cases h
        · split at h
          · cases hic : recoverLookup lookup r.url with
            | none =>
              rw [hic] at h
              injection h with h1 h2
              exact Or.inl h1.symm
            | some b =>
              rw [hic] at h
              dsimp only at h
              by_cases hb : b = []
              · rw [if_pos hb] at h
                injection h with h1 h2
                exact Or.inl h1.symm
              · rw [if_neg hb] at h
                injection h with h1 h2
                exact Or.inr ⟨_, h1.symm⟩
          · injection h with h1 h2
            exact Or.inl h1.symm
  case isFalse => cases h

theorem processRow_false_emit (cd : String) (byId : Int → Option (Option String × Int))
    (lookup : Option String → Except Unit (Option (List Nat)))
    (sp : List String) (sep : String) (fuel : Nat)
    (r : Row) (fs : FS) (line : String) (fs1 : FS)
    (h : processRow cd byId lookup false sp sep fuel r fs = Outcome.emit line fs1) :
    r.type = 1 ∧ line = displayName r.title ++ "\x00info\x1f" ++ pyStr r.url ∧ fs1 = fs := by
  unfold processRow at h
  split at h
  case isTrue ht =>
    refine ⟨ht, ?_⟩
    split at h
    · cases h
    · split at h
      · cases h
      · cases h
      · split at h
        · cases h
        · injection h with h1 h2
          exact ⟨h1.symm, h2.symm⟩
  case isFalse => cases h

theorem processRow_sep (cd : String) (byId : Int → Option (Option String × Int))
    (lookup : Option String → Except Unit (Option (List Nat)))
    (favAvail : Bool) (sp : List String) (s1 s2 : String) (fuel : Nat)
    (r : Row) (fs : FS) :
    processRow cd byId lookup favAvail sp s1 fuel r fs
      = processRow cd byId lookup favAvail sp s2 fuel r fs := by
  unfold processRow
  by_cases ht : r.type = 1
  · rw [if_pos ht, if_pos ht]
    cases hp : parent_generator byId fuel r.id with
    | error e => rfl
    | ok chain =>
      dsimp only
      cases hc : consume sp chain.reverse with
      | error e => rfl
      | ok br =>
        rcases br with ⟨b, rest⟩
        cases b
        · rfl
        · dsimp only
          simp only [pyJoin]
          by_cases hn : rest.any (fun t => t.isNone)
          · rw [if_pos hn, if_pos hn]
          · rw [if_neg hn, if_neg hn]
  · rw [if_neg ht, if_neg ht]

theorem processRow_recover (cd : String) (byId : Int → Option (Option String × Int))
    (lookup : Option String → Except Unit (Option (List Nat)))
    (favAvail : Bool) (sp : List String) (sep : String) (fuel : Nat)
    (r : Row) (fs : FS) :
    processRow cd byId (fun u => Except.ok (recoverLookup lookup u)) favAvail sp sep fuel r fs
      = processRow cd byId lookup favAvail sp sep fuel r fs := by
  unfold processRow
  have hr : recoverLookup (fun u => Except.ok (recoverLookup lookup u)) r.url
      = recoverLookup lookup r.url := rfl
  rw [hr]

theorem writeRofiGo_sep (cd : String) (byId : Int → Option (Option String × Int))
    (lookup : Option String → Except Unit (Option (List Nat)))
    (favAvail : Bool) (sp : List String) (s1 s2 : String) (fuel : Nat) :
    ∀ (rows : List Row) (fs : FS),
      writeRofiGo cd byId lookup favAvail sp s1 fuel rows fs
        = writeRofiGo cd byId lookup favAvail sp s2 fuel rows fs := by
  intro rows
  induction rows with
  | nil => intro fs; rfl
  | cons r rs ih =>
    intro fs
    unfold writeRofiGo
    rw [processRow_sep cd byId lookup favAvail sp s1 s2 fuel r fs]
    cases hp : processRow cd byId lookup favAvail sp s2 fuel r fs with
    | skip => exact ih fs
    | fail e => rfl
    | emit line fs1 =>
      dsimp only
      rw [ih fs1]

theorem writeRofiGo_recover (cd : String) (byId : Int → Option (Option String × Int))
    (lookup : Option String → Except Unit (Option (List Nat)))
    (favAvail : Bool) (sp : List String) (sep : String) (fuel : Nat) :
    ∀ (rows : List Row) (fs : FS),
      writeRofiGo cd byId (fun u => Except.ok (recoverLookup lookup u)) favAvail sp sep fuel rows fs
        = writeRofiGo cd byId lookup favAvail sp sep fuel rows fs := by
  intro rows
  induction rows with
  | nil => intro fs; rfl
  | cons r rs ih =>
    intro fs
    unfold writeRofiGo
    rw [processRow_recover cd byId lookup favAvail sp sep fuel r fs]
    cases hp : processRow cd byId lookup favAvail sp sep fuel r fs with
    | skip => exact ih fs
    | fail e => rfl
    | emit line fs1 =>
      dsimp only
      rw [ih fs1]

theorem writeRofiGo_false_shape (cd : String) (byId : Int → Option (Option String × Int))
    (lookup : Option String → Except Unit (Option (List Nat)))
    (sp : List String) (sep : String) (fuel : Nat) :
    ∀ (rows : List Row) (fs : FS) (line : String),
      line ∈ (writeRofiGo cd byId lookup false sp sep fuel rows fs).1 →
      ∃ r, r ∈ rows ∧ r.type = 1 ∧
        line = displayName r.title ++ "\x00info\x1f" ++ pyStr r.url := by
  intro rows
  induction rows with
  | nil => intro fs line h; cases h
  | cons r rs ih =>
    intro fs line h
    unfold writeRofiGo at h
    cases hp : processRow cd byId lookup false sp sep fuel r fs with
    | skip =>
      rw [hp] at h
      rcases ih fs line h with ⟨r2, hr2, ht2, hl2⟩
      exact ⟨r2, List.mem_cons_of_mem _ hr2, ht2, hl2⟩
    | fail e =>
      rw [hp] at h
      cases h
    | emit l2 fs1 =>
      rw [hp] at h
      dsimp only at h
      rcases List.mem_cons.mp h with h1 | h1
      · rcases processRow_false_emit cd byId lookup sp sep fuel r fs l2 fs1 hp with ⟨ht, hl, -⟩
        exact ⟨r, List.mem_cons_self _ _, ht, by rw [h1, hl]⟩
      · rcases ih fs1 line h1 with ⟨r2, hr2, ht2, hl2⟩
        exact ⟨r2, List.mem_cons_of_mem _ hr2, ht2, hl2⟩

theorem writeRofiGo_emit_shape (cd : String) (byId : Int → Option (Option String × Int))
    (lookup : Option String → Except Unit (Option (List Nat)))
    (favAvail : Bool) (sp : List String) (sep : String) (fuel : Nat) :
    ∀ (rows : List Row) (fs : FS) (line : String),
      line ∈ (writeRofiGo cd byId lookup favAvail sp sep fuel rows fs).1 →
      ∃ r, r ∈ rows ∧ r.type = 1 ∧
        (line = displayName r.title ++ "\x00info\x1f" ++ pyStr r.url ∨
         ∃ p, line = displayName r.title ++ "\x00info\x1f" ++ pyStr r.url
                ++ "\x1ficon\x1f" ++ p) := by
  intro rows
  induction rows with
  | nil => intro fs line h; cases h
  | cons r rs ih =>
    intro fs line h
    unfold writeRofiGo at h
    cases hp : processRow cd byId lookup favAvail sp sep fuel r fs with
    | skip =>
      rw [hp] at h
      rcases ih fs line h with ⟨r2, hr2, ht2, hl2⟩
      exact ⟨r2, List.mem_cons_of_mem _ hr2, ht2, hl2⟩
    | fail e =>
      rw [hp] at h
      cases h
    | emit l2 fs1 =>
      rw [hp] at h
      dsimp only at h
      rcases List.mem_cons.mp h with h1 | h1
      · rcases processRow_emit_shape cd byId lookup favAvail sp sep fuel r fs l2 fs1 hp
          with ⟨ht, hl⟩
        exact ⟨r, List.mem_cons_self _ _, ht, by rw [h1]; exact hl⟩
      · rcases ih fs1 line h1 with ⟨r2, hr2, ht2, hl2⟩
        exact ⟨r2, List.mem_cons_of_mem _ hr2, ht2, hl2⟩

/-! ## Claim theorems -/

/-- Claim C9: the separator argument never influences the output of
`write_rofi_input` — for any two separator strings the emitted lines, the
abort behaviour and the final filesystem coincide, because the
separator-joined remaining-path suffix is computed but never printed. -/
theorem separator_never_influences_output (cd : String)
    (lookup : Option String → Except Unit (Option (List Nat)))
    (favAvail : Bool) (rows : List Row) (sp : List String) (s1 s2 : String)
    (fs : FS) :
    write_rofi_input cd lookup favAvail rows sp s1 fs
      = write_rofi_input cd lookup favAvail rows sp s2 fs :=
  writeRofiGo_sep cd (by_id rows) lookup favAvail sp s1 s2 (rows.length + 1) rows fs

/-- Claim C4: favicon lookup failures are recovered locally.  Running the
listing with a lookup that may raise equals running it with the lookup whose
failures are replaced by "no icon" (so a lookup error never aborts the
listing and the affected bookmark is still emitted, without the icon field);
and with the favicons database missing (`favAvail = false`) every emitted
line is the plain form without the icon metadata field. -/
theorem favicon_failures_recovered (cd : String)
    (lookup : Option String → Except Unit (Option (List Nat)))
    (rows : List Row) (sp : List String) (sep : String) (fs : FS) :
    (write_rofi_input cd lookup true rows sp sep fs
       = write_rofi_input cd (fun u => Except.ok (recoverLookup lookup u)) true rows sp sep fs)
    ∧ (∀ line ∈ (write_rofi_input cd lookup false rows sp sep fs).1,
         ∃ r, r ∈ rows ∧ r.type = 1 ∧
           line = displayName r.title ++ "\x00info\x1f" ++ pyStr r.url) :=
  ⟨(writeRofiGo_recover cd (by_id rows) lookup true sp sep (rows.length + 1) rows fs).symm,
   fun line h => writeRofiGo_false_shape cd (by_id rows) lookup sp sep (rows.length + 1) rows fs line h⟩

/-- Witness for C4 at concrete input: with a favicon lookup that always
raises and a missing favicons database, the example bookmark is still listed
and its line is the plain icon-free form. -/
theorem favicon_failures_recovered_witness :
    ("Site\x00info\x1fhttps://example.com" ∈
        (write_rofi_input "cache" exFailLookup false exRows [] " / " fs0).1)
    ∧ (∃ r, r ∈ exRows ∧ r.type = 1 ∧
        "Site\x00info\x1fhttps://example.com"
          = displayName r.title ++ "\x00info\x1f" ++ pyStr r.url) :=
  ⟨by decide,
   (favicon_failures_recovered "cache" exFailLookup exRows [] " / " fs0).2
     "Site\x00info\x1fhttps://example.com" (by decide)⟩

/-- Claim C8: every line emitted for an accepted bookmark has exactly the
form `displayName ++ "\x00info\x1f" ++ url`, optionally followed by
`"\x1ficon\x1f" ++ iconCachePath`, where `displayName` is the row's title or
the placeholder `"Untitled Bookmark"` for an empty or absent title (that rule
is the definition of `displayName`). -/
theorem output_line_format (cd : String)
    (lookup : Option String → Except Unit (Option (List Nat)))
    (favAvail : Bool) (rows : List Row) (sp : List String) (sep : String)
    (fs : FS) :
    ∀ line ∈ (write_rofi_input cd lookup favAvail rows sp sep fs).1,
      ∃ r, r ∈ rows ∧ r.type = 1 ∧
        (line = displayName r.title ++ "\x00info\x1f" ++ pyStr r.url ∨
         ∃ p, line = displayName r.title ++ "\x00info\x1f" ++ pyStr r.url
                ++ "\x1ficon\x1f" ++ p) :=
  fun line h =>
    writeRofiGo_emit_shape cd (by_id rows) lookup favAvail sp sep (rows.length + 1) rows fs line h

/-- Witness for C8 at concrete input. -/
theorem output_line_format_witness :
    ("Site\x00info\x1fhttps://example.com" ∈
        (write_rofi_input "cache" exNoneLookup true exRows [] " / " fs0).1)
    ∧ (∃ r, r ∈ exRows ∧ r.type = 1 ∧
        ("Site\x00info\x1fhttps://example.com"
            = displayName r.title ++ "\x00info\x1f" ++ pyStr r.url ∨
         ∃ p, "Site\x00info\x1fhttps://example.com"
            = displayName r.title ++ "\x00info\x1f" ++ pyStr r.url
                ++ "\x1ficon\x1f" ++ p)) :=
  ⟨by decide,
   output_line_format "cache" exNoneLookup true exRows [] " / " fs0
     "Site\x00info\x1fhttps://example.com" (by decide)⟩

/-- Claim C1 (amended): for a bookmark row whose parent walk yields `chain`
(own title first), the row is emitted iff `search_path` equals
element-by-element the first `len(search_path)` entries of the FULL path —
the ancestor titles from the root followed by the bookmark's own title
(`chain.reverse`) — AND the remaining suffix past that prefix contains no
NULL title.  When the full path is a strict prefix of `search_path`, the
listing aborts with a `RuntimeError` (the exhausted iterator of the
`all(...)` test) instead of skipping; when the prefix matches but the
remaining suffix contains a NULL title, the listing aborts with the
`TypeError` raised by `sep.join`; every other mismatch is skipped silently.
In particular an empty `search_path` emits exactly the bookmarks whose full
path has no NULL title, and aborts the listing on the first one that does. -/
theorem bookmark_filter_characterization (cd : String)
    (byId : Int → Option (Option String × Int))
    (lookup : Option String → Except Unit (Option (List Nat)))
    (favAvail : Bool) (sp : List String) (sep : String) (fuel : Nat)
    (r : Row) (fs : FS) (chain : List (Option String))
    (ht : r.type = 1) (hp : parent_generator byId fuel r.id = Except.ok chain) :
    ((∃ line fs1,
        processRow cd byId lookup favAvail sp sep fuel r fs = Outcome.emit line fs1)
      ↔ (chain.reverse.take sp.length = sp.map some
         ∧ (chain.reverse.drop sp.length).any (fun t => t.isNone) = false))
    ∧ (processRow cd byId lookup favAvail sp sep fuel r fs = Outcome.fail PyErr.typeError
      ↔ (chain.reverse.take sp.length = sp.map some
         ∧ (chain.reverse.drop sp.length).any (fun t => t.isNone) = true))
    ∧ (processRow cd byId lookup favAvail sp sep fuel r fs = Outcome.fail PyErr.runtimeError
      ↔ (chain.length < sp.length ∧ chain.reverse = (sp.take chain.length).map some))
    ∧ (processRow cd byId lookup favAvail sp sep fuel r fs = Outcome.skip
      ↔ (chain.reverse.take sp.length ≠ sp.map some
         ∧ ¬ (chain.length < sp.length
              ∧ chain.reverse = (sp.take chain.length).map some))) := by
  have hrev : chain.reverse.length = chain.length := List.length_reverse chain
  unfold processRow
  rw [if_pos ht, hp]
  dsimp only
  cases hc : consume sp chain.reverse with
  | error e =>
    have he : e = PyErr.runtimeError := consume_error_name sp chain.reverse e hc
    subst he
    have herr := (consume_error_iff sp chain.reverse).mp hc
    rw [hrev] at herr
    have hA : ¬ chain.reverse.take sp.length = sp.map some := by
      intro htake
      have h1 := congrArg List.length htake
      rw [List.length_take, List.length_map, hrev] at h1
      omega
    refine ⟨?_, ?_, ?_, ?_⟩
    · constructor
      · rintro ⟨line, fs1, h⟩; cases h
      · rintro ⟨h1, -⟩; exact absurd h1 hA
    · constructor
      · intro h; injection h with e2; cases e2
      · rintro ⟨h1, -⟩; exact absurd h1 hA
    · exact ⟨fun _ => herr, fun _ => rfl⟩
    · constructor
      · intro h; cases h
      · rintro ⟨-, h2⟩; exact absurd herr (fun hh => h2 hh)
  | ok br =>
    rcases br with ⟨b, rest⟩
    cases b with
    | false =>
      dsimp only
      have hA : ¬ chain.reverse.take sp.length = sp.map some := by
        intro hA1
        have h2 := (consume_ok_true sp chain.reverse (chain.reverse.drop sp.length)).mpr
          ⟨hA1, rfl⟩
        rw [hc] at h2
        cases h2
      have hB : ¬ (chain.length < sp.length
          ∧ chain.reverse = (sp.take chain.length).map some) := by
        rintro ⟨hb1, hb2⟩
        have h2 := (consume_error_iff sp chain.reverse).mpr
          ⟨by omega, by rw [hrev]; exact hb2⟩
        rw [hc] at h2
        cases h2
      refine ⟨?_, ?_, ?_, ?_⟩
      · constructor
        · rintro ⟨line, fs1, h⟩; cases h
        · rintro ⟨h1, -⟩; exact absurd h1 hA
      · constructor
        · intro h; cases h
        · rintro ⟨h1, -⟩; exact absurd h1 hA
      · constructor
        · intro h; cases h
        · intro h; exact absurd h hB
      · exact ⟨fun _ => ⟨hA, hB⟩, fun _ => rfl⟩
    | true =>
      dsimp only
      have hok := (consume_ok_true sp chain.reverse rest).mp hc
      have hB : ¬ (chain.length < sp.length
          ∧ chain.reverse = (sp.take chain.length).map some) := by
        rintro ⟨hb1, hb2⟩
        have h2 := (consume_error_iff sp chain.reverse).mpr
          ⟨by omega, by rw [hrev]; exact hb2⟩
        rw [hc] at h2
        cases h2
      cases hany : rest.any (fun t => t.isNone) with
      | true =>
        have hanyd : (chain.reverse.drop sp.length).any (fun t => t.isNone) = true := by
          rw [← hok.2]; exact hany
        have hjoin : pyJoin sep rest = Except.error PyErr.typeError := by
          unfold pyJoin
          rw [hany]
          simp
        rw [hjoin]
        dsimp only
        refine ⟨?_, ?_, ?_, ?_⟩
        · constructor
          · rintro ⟨line, fs1, h⟩; cases h
          · rintro ⟨-, h2⟩
            rw [hanyd] at h2
            cases h2
        · exact ⟨fun _ => ⟨hok.1, hanyd⟩, fun _ => rfl⟩
        · constructor
          · intro h; injection h with e2; cases e2
          · intro h; exact absurd h hB
        · constructor
          · intro h; cases h
          · rintro ⟨h1, -⟩; exact absurd hok.1 h1
      | false =>
        have hanyd : (chain.reverse.drop sp.length).any (fun t => t.isNone) = false := by
          rw [← hok.2]; exact hany
        have hjoin : pyJoin sep rest
            = Except.ok (String.intercalate sep (rest.filterMap id)) := by
          unfold pyJoin
          rw [hany]
          simp
        rw [hjoin]
        dsimp only
        generalize (if favAvail = true then recoverLookup lookup r.url else none) = icn
        cases icn with
        | none =>
          dsimp only
          exact ⟨⟨fun _ => ⟨hok.1, hanyd⟩, fun _ => ⟨_, _, rfl⟩⟩,
                 ⟨fun h => (by cases h), fun h => (by rw [hanyd] at h; cases h.2)⟩,
                 ⟨fun h => (by cases h), fun h => absurd h hB⟩,
                 ⟨fun h => (by cases h), fun h => absurd hok.1 h.1⟩⟩
        | some b =>
          dsimp only
          by_cases hb : b = []
          · rw [if_pos hb]
            exact ⟨⟨fun _ => ⟨hok.1, hanyd⟩, fun _ => ⟨_, _, rfl⟩⟩,
                   ⟨fun h => (by cases h), fun h => (by rw [hanyd] at h; cases h.2)⟩,
                   ⟨fun h => (by cases h), fun h => absurd h hB⟩,
                   ⟨fun h => (by cases h), fun h => absurd hok.1 h.1⟩⟩
          · rw [if_neg hb]
            exact ⟨⟨fun _ => ⟨hok.1, hanyd⟩, fun _ => ⟨_, _, rfl⟩⟩,
                   ⟨fun h => (by cases h), fun h => (by rw [hanyd] at h; cases h.2)⟩,
                   ⟨fun h => (by cases h), fun h => absurd h hB⟩,
                   ⟨fun h => (by cases h), fun h => absurd hok.1 h.1⟩⟩

/-- Witness for C1 (amended) at concrete input: the example bookmark under
folder "Work" is emitted for `search_path = ["Work"]`. -/
theorem bookmark_filter_characterization_witness :
    (exBm.type = 1)
    ∧ parent_generator (by_id exRows) 4 exBm.id = Except.ok [some "Site", some "Work"]
    ∧ (∃ line fs1,
        processRow "cache" (by_id exRows) exNoneLookup false ["Work"] " / " 4 exBm fs0
          = Outcome.emit line fs1) :=
  ⟨rfl, rfl,
   (bookmark_filter_characterization "cache" (by_id exRows) exNoneLookup false ["Work"] " / "
      4 exBm fs0 [some "Site", some "Work"] rfl rfl).1.mpr (by decide)⟩

/-- Counterexample to C1 as stated: with `search_path = ["Work", "Site"]`
the ancestor path of the example bookmark (titles from root to its immediate
parent) is `["Work"]`, whose first two elements do not equal the search
path, so the claim predicts rejection — yet `write_rofi_input` emits the
bookmark, because the matched sequence also contains the bookmark's own
title. -/
theorem bookmark_filter_counterexample :
    (write_rofi_input "cache" exNoneLookup false exRows ["Work", "Site"] " / " fs0).1
        = ["Site\x00info\x1fhttps://example.com"]
    ∧ specAncestorPath (by_id exRows) 4 100 = some [some "Work"]
    ∧ ([some "Work"] : List (Option String)).take 2
        ≠ (["Work", "Site"] : List String).map some :=
  ⟨by decide, rfl, by decide⟩

/-- Claim C2 (amended): on an acyclic parent chain (witnessed by `Chain`,
which stops as soon as the id is `≤ 1`, in particular at the sentinel root
id 1), `parent_generator` terminates with exactly the chain's titles — the
walked titles beginning with the bookmark's OWN title — so the reversed
sequence runs from the top-level ancestor down to the bookmark itself, its
last element being the bookmark's own title; the chain is unique, and its
length is the number of parent hops from the bookmark to the root. -/
theorem resolve_path_terminates (byId : Int → Option (Option String × Int))
    (i : Int) (l : List (Option String)) (fuel : Nat)
    (hc : Chain byId i l) (hf : l.length ≤ fuel) :
    parent_generator byId fuel i = Except.ok l
    ∧ (∀ l2, Chain byId i l2 → l2 = l)
    ∧ (∀ t p, 1 < i → byId i = some (t, p) → l.reverse.getLast? = some t) := by
  refine ⟨parent_generator_of_chain hc fuel hf, fun l2 h2 => chain_unique h2 l hc, ?_⟩
  intro t p hi hb
  cases hc with
  | stop j hj => omega
  | step j t2 p2 l2 hlt hb2 hch =>
    rw [hb] at hb2
    injection hb2 with e
    injection e with et ep
    rw [List.getLast?_reverse, ← et]
    rfl

/-- Witness for C2 (amended) at concrete input: the two-hop chain of the
example bookmark resolves. -/
theorem resolve_path_terminates_witness :
    Chain (by_id exRows) 100 [some "Site", some "Work"]
    ∧ (([some "Site", some "Work"] : List (Option String)).length ≤ 4)
    ∧ parent_generator (by_id exRows) 4 100 = Except.ok [some "Site", some "Work"] := by
  have hc : Chain (by_id exRows) 100 [some "Site", some "Work"] :=
    Chain.step 100 (some "Site") 10 [some "Work"] (by decide) rfl
      (Chain.step 10 (some "Work") 1 [] (by decide) rfl (Chain.stop 1 (by decide)))
  exact ⟨hc, by decide,
    (resolve_path_terminates (by_id exRows) 100 [some "Site", some "Work"] 4 hc (by decide)).1⟩

/-- Counterexample to C2 as stated: the resolved path of the example
bookmark is `["Work", "Site"]` — it ends with the bookmark's own title —
whereas the ancestor folder titles ordered from root to immediate parent are
`["Work"]`. -/
theorem resolve_path_counterexample :
    (parent_generator (by_id exRows) 4 100).map List.reverse
        = Except.ok [some "Work", some "Site"]
    ∧ specAncestorPath (by_id exRows) 4 100 = some [some "Work"]
    ∧ ([some "Work", some "Site"] : List (Option String)) ≠ [some "Work"] :=
  ⟨rfl, rfl, by decide⟩

theorem cache_icon_lookup_eq (cd : String) (fs : FS) (icon : List Nat)
    (h : fs.files.lookup (cacheLoc cd icon) = none
       ∨ fs.files.lookup (cacheLoc cd icon) = some icon) :
    (cache_icon cd fs icon).2.files.lookup (cacheLoc cd icon) = some icon := by
  by_cases hd : fs.cacheDirExists <;> rcases h with h | h <;>
    simp [cache_icon, hd, h, List.lookup]

/-- Claim C3: `cache_icon` is idempotent and content addressed.  Starting
from a filesystem whose cache entry for these bytes is absent or already
correct, two successive calls with the same bytes return the same path, and
after each call the file at the returned path holds exactly the input bytes;
moreover the returned path depends only on the bytes — any two filesystem
states (hence any two bookmarks, whatever their URLs) give the identical
cache path for byte-identical icons. -/
theorem cache_icon_idempotent_content_addressed (cd : String) (fs fsb : FS)
    (icon : List Nat)
    (h : fs.files.lookup (cacheLoc cd icon) = none
       ∨ fs.files.lookup (cacheLoc cd icon) = some icon) :
    ((cache_icon cd fs icon).1 = (cache_icon cd (cache_icon cd fs icon).2 icon).1)
    ∧ ((cache_icon cd fs icon).2.files.lookup ((cache_icon cd fs icon).1) = some icon)
    ∧ ((cache_icon cd (cache_icon cd fs icon).2 icon).2.files.lookup
          ((cache_icon cd fs icon).1) = some icon)
    ∧ ((cache_icon cd fs icon).1 = (cache_icon cd fsb icon).1) := by
  have h1 := cache_icon_lookup_eq cd fs icon h
  have h2 := cache_icon_lookup_eq cd (cache_icon cd fs icon).2 icon (Or.inr h1)
  exact ⟨rfl, h1, h2, rfl⟩

/-- Witness for C3 at concrete input: caching the one-byte icon `[0]` twice
starting from the empty filesystem. -/
theorem cache_icon_idempotent_witness :
    (fs0.files.lookup (cacheLoc "cache" [0]) = none
       ∨ fs0.files.lookup (cacheLoc "cache" [0]) = some [0])
    ∧ ((cache_icon "cache" fs0 [0]).1
        = (cache_icon "cache" (cache_icon "cache" fs0 [0]).2 [0]).1)
    ∧ ((cache_icon "cache" fs0 [0]).2.files.lookup ((cache_icon "cache" fs0 [0]).1)
        = some [0])
    ∧ ((cache_icon "cache" (cache_icon "cache" fs0 [0]).2 [0]).2.files.lookup
        ((cache_icon "cache" fs0 [0]).1) = some [0])
    ∧ ((cache_icon "cache" fs0 [0]).1 = (cache_icon "cache" ⟨true, []⟩ [0]).1) :=
  ⟨Or.inl rfl,
   cache_icon_idempotent_content_addressed "cache" fs0 ⟨true, []⟩ [0] (Or.inl rfl)⟩

/-- Claim C5: `default_profile_path` fails exactly when no profile
directories were discovered; otherwise it returns the first discovered
directory whose name contains "default" case-insensitively, and when none
does, a discovered directory of maximal modification time. -/
theorem default_profile_selection (ps : List (String × Int)) :
    ((∃ msg, default_profile_path ps = Except.error msg) ↔ ps = [])
    ∧ (∀ p, ps.find? (fun q => hasDefault q.1) = some p
        → default_profile_path ps = Except.ok p)
    ∧ (ps ≠ [] → ps.find? (fun q => hasDefault q.1) = none →
        ∃ p, default_profile_path ps = Except.ok p ∧ p ∈ ps ∧ ∀ q ∈ ps, q.2 ≤ p.2) := by
  refine ⟨?_, ?_, ?_⟩
  · cases ps with
    | nil => exact ⟨fun _ => rfl, fun _ => ⟨_, rfl⟩⟩
    | cons a rest =>
      constructor
      · rintro ⟨msg, hmsg⟩
        unfold default_profile_path at hmsg
        dsimp only at hmsg
        cases hfind : (a :: rest).find? (fun q => hasDefault q.1) with
        | some q => rw [hfind] at hmsg; cases hmsg
        | none => rw [hfind] at hmsg; cases hmsg
      · intro h; cases h
  · intro p hf
    cases ps with
    | nil => cases hf
    | cons a rest =>
      unfold default_profile_path
      dsimp only
      rw [hf]
  · intro hne hf
    cases ps with
    | nil => exact absurd rfl hne
    | cons a rest =>
      unfold default_profile_path
      dsimp only
      rw [hf]
      refine ⟨pyMaxBy (fun q => q.2) a rest, rfl, pyMaxBy_mem _ rest a, ?_⟩
      intro q hq
      rcases List.mem_cons.mp hq with h1 | h1
      · rw [h1]; exact pyMaxBy_ge_seed _ rest a
      · exact pyMaxBy_ge_mem _ rest a q h1

/-- Witness for C5 at the spec's example input: among
`["work.default-release", "test-profile"]` the first name containing
"default" is returned. -/
theorem default_profile_selection_witness :
    ([(("work.default-release" : String), (0 : Int)), ("test-profile", 5)].find?
        (fun q => hasDefault q.1) = some ("work.default-release", 0))
    ∧ default_profile_path [("work.default-release", 0), ("test-profile", 5)]
        = Except.ok ("work.default-release", 0) :=
  ⟨by decide,
   (default_profile_selection [("work.default-release", 0), ("test-profile", 5)]).2.1
     ("work.default-release", 0) (by decide)⟩

/-- Claim C6: `path_from_name` tries exact directory-name match, then
case-insensitive substring match (query inside the name), then the
`profiles.ini` registry (section with `Name` equal to the query, resolving
its relative `Path` against the root), in that order, and raises exactly
when all three fail. -/
theorem profile_name_resolution (ps : List (String × Int))
    (ini : Option (List (List (String × String)))) (name : String) :
    (∀ p, ps.find? (fun q => q.1 == name) = some p →
       path_from_name ps ini name = Except.ok (firefoxDir ++ "/" ++ p.1))
    ∧ (ps.find? (fun q => q.1 == name) = none →
       ∀ p, ps.find? (fun q => strContains (pyLower q.1) (pyLower name)) = some p →
         path_from_name ps ini name = Except.ok (firefoxDir ++ "/" ++ p.1))
    ∧ (ps.find? (fun q => q.1 == name) = none →
       ps.find? (fun q => strContains (pyLower q.1) (pyLower name)) = none →
       ∀ rel, ini.bind (fun ss => iniFind ss name) = some rel →
         path_from_name ps ini name = Except.ok (firefoxDir ++ "/" ++ rel))
    ∧ ((∃ msg, path_from_name ps ini name = Except.error msg) ↔
       (ps.find? (fun q => q.1 == name) = none
        ∧ ps.find? (fun q => strContains (pyLower q.1) (pyLower name)) = none
        ∧ ini.bind (fun ss => iniFind ss name) = none)) := by
  refine ⟨?_, ?_, ?_, ?_⟩
  · intro p hf
    unfold path_from_name
    rw [hf]
  · intro h1 p hf
    unfold path_from_name
    rw [h1, hf]
  · intro h1 h2 rel hf
    unfold path_from_name
    rw [h1, h2, hf]
  · constructor
    · rintro ⟨msg, hmsg⟩
      unfold path_from_name at hmsg
      cases hf1 : ps.find? (fun q => q.1 == name) with
      | some p => rw [hf1] at hmsg; cases hmsg
      | none =>
        rw [hf1] at hmsg
        cases hf2 : ps.find? (fun q => strContains (pyLower q.1) (pyLower name)) with
        | some p => rw [hf2] at hmsg; cases hmsg
        | none =>
          rw [hf2] at hmsg
          cases hf3 : ini.bind (fun ss => iniFind ss name) with
          | some rel => rw [hf3] at hmsg; cases hmsg
          | none => exact ⟨rfl, rfl, rfl⟩
    · rintro ⟨h1, h2, h3⟩
      unfold path_from_name
      rw [h1, h2, h3]
      exact ⟨_, rfl⟩

/-- Witness for C6 at concrete input: no directories are discovered, and the
registry fallback resolves profile "dev" to its declared relative path. -/
theorem profile_name_resolution_witness :
    (([] : List (String × Int)).find? (fun q => q.1 == "dev") = none)
    ∧ (([] : List (String × Int)).find?
        (fun q => strContains (pyLower q.1) (pyLower "dev")) = none)
    ∧ ((some [[("Name", "dev"), ("Path", "abc.dev")]]).bind
        (fun ss => iniFind ss "dev") = some "abc.dev")
    ∧ path_from_name [] (some [[("Name", "dev"), ("Path", "abc.dev")]]) "dev"
        = Except.ok (firefoxDir ++ "/" ++ "abc.dev") :=
  ⟨rfl, rfl, rfl,
   (profile_name_resolution [] (some [[("Name", "dev"), ("Path", "abc.dev")]]) "dev").2.2.1
     rfl rfl "abc.dev" rfl⟩

/-- Claim C7: `temp_sqlite` copies the source into a fresh, uniquely named
temporary file (fresh under the invariant that existing temp names precede
the name counter), runs the body on a connection to that copy, and on every
exit path — the cleanup conjuncts below hold whether the body's result is a
value or an exception — the connection is closed and the temporary file
deleted. -/
theorem temp_sqlite_scoped {α : Type} (src : List Nat)
    (body : Nat → TmpState → Except PyErr α × TmpState) (s : TmpState)
    (hinv : ∀ pr ∈ s.tempFiles, pr.1 < s.nextTemp) :
    (s.tempFiles.lookup s.nextTemp = none)
    ∧ (∃ s1 : TmpState,
        (temp_sqlite src body s).1 = (body s.nextTemp s1).1
        ∧ s1.tempFiles.lookup s.nextTemp = some src
        ∧ s.nextTemp ∈ s1.openConns)
    ∧ ((temp_sqlite src body s).2.tempFiles.lookup s.nextTemp = none)
    ∧ (s.nextTemp ∉ (temp_sqlite src body s).2.openConns) := by
  refine ⟨?_, ?_, ?_, ?_⟩
  · exact lookup_eq_none_of_forall_ne _ _ (fun pr hpr => Nat.ne_of_lt (hinv pr hpr))
  · unfold temp_sqlite
    dsimp only
    generalize hb : body s.nextTemp
      ⟨s.nextTemp + 1, (s.nextTemp, src) :: s.tempFiles, s.nextTemp :: s.openConns⟩ = rs
    rcases rs with ⟨r, s2⟩
    dsimp only
    refine ⟨⟨s.nextTemp + 1, (s.nextTemp, src) :: s.tempFiles, s.nextTemp :: s.openConns⟩,
      ?_, ?_, ?_⟩
    · rw [hb]
    · simp [List.lookup]
    · exact List.mem_cons_self _ _
  · unfold temp_sqlite
    dsimp only
    generalize hb : body s.nextTemp
      ⟨s.nextTemp + 1, (s.nextTemp, src) :: s.tempFiles, s.nextTemp :: s.openConns⟩ = rs
    rcases rs with ⟨r, s2⟩
    dsimp only
    exact lookup_filter_ne s.nextTemp s2.tempFiles
  · unfold temp_sqlite
    dsimp only
    generalize hb : body s.nextTemp
      ⟨s.nextTemp + 1, (s.nextTemp, src) :: s.tempFiles, s.nextTemp :: s.openConns⟩ = rs
    rcases rs with ⟨r, s2⟩
    dsimp only
    exact not_mem_filter_ne s.nextTemp s2.openConns

/-- Witness for C7 at concrete input: a body that raises; afterwards the
temporary file is gone and no connection to it remains open. -/
theorem temp_sqlite_scoped_witness :
    (∀ pr ∈ (⟨0, [], []⟩ : TmpState).tempFiles, pr.1 < (⟨0, [], []⟩ : TmpState).nextTemp)
    ∧ ((temp_sqlite [7]
          (fun _ st => ((Except.error PyErr.keyError : Except PyErr Unit), st))
          ⟨0, [], []⟩).2.tempFiles.lookup 0 = none)
    ∧ ((0 : Nat) ∉ (temp_sqlite [7]
          (fun _ st => ((Except.error PyErr.keyError : Except PyErr Unit), st))
          ⟨0, [], []⟩).2.openConns) := by
  refine ⟨by simp, ?_, ?_⟩
  · exact (temp_sqlite_scoped [7]
      (fun _ st => ((Except.error PyErr.keyError : Except PyErr Unit), st))
      ⟨0, [], []⟩ (by simp)).2.2.1
  · exact (temp_sqlite_scoped [7]
      (fun _ st => ((Except.error PyErr.keyError : Except PyErr Unit), st))
      ⟨0, [], []⟩ (by simp)).2.2.2

theorem segs_slash_cons (cs : List Char) :
    (pySplit ('/' :: cs)).filter (fun s => s ≠ []) = (pySplit cs).filter (fun s => s ≠ []) := by
  rw [pySplit_cons_slash]
  simp

theorem segs_append_slash (a b : List Char) :
    (pySplit (a ++ '/' :: b)).filter (fun s => s ≠ [])
      = (pySplit a).filter (fun s => s ≠ []) ++ (pySplit b).filter (fun s => s ≠ []) := by
  rw [pySplit_append_slash, List.filter_append]

theorem segs_replicate (n : Nat) :
    (pySplit (List.replicate n '/')).filter (fun s => s ≠ []) = [] := by
  induction n with
  | zero => rfl
  | succ k ih => rw [List.replicate_succ, segs_slash_cons]; exact ih

/-- Claim C10: converting the positional path argument by splitting on
slashes and discarding empty segments makes leading, trailing and doubled
slashes irrelevant, an all-slash path is the empty search path, and the
empty search path passes the filter for every bookmark. -/
theorem path_argument_normalization (p s t : String) (n : Nat)
    (l : List (Option String)) :
    search_path_of ("/" ++ p) = search_path_of p
    ∧ search_path_of (p ++ "/") = search_path_of p
    ∧ search_path_of (s ++ "//" ++ t) = search_path_of (s ++ "/" ++ t)
    ∧ search_path_of (String.mk (List.replicate n '/')) = []
    ∧ consume [] l = Except.ok (true, l) := by
  refine ⟨?_, ?_, ?_, ?_, rfl⟩
  · unfold search_path_of
    rw [show ("/" ++ p).data = '/' :: p.data from by rw [String.data_append]; rfl,
      segs_slash_cons]
  · unfold search_path_of
    rw [show (p ++ "/").data = p.data ++ '/' :: [] from by rw [String.data_append],
      segs_append_slash]
    simp [pySplit]
  · unfold search_path_of
    rw [show (s ++ "//" ++ t).data = s.data ++ '/' :: ('/' :: t.data) from by
        rw [String.data_append, String.data_append, List.append_assoc]; rfl,
      show (s ++ "/" ++ t).data = s.data ++ '/' :: t.data from by
        rw [String.data_append, String.data_append, List.append_assoc]; rfl,
      segs_append_slash, segs_append_slash, segs_slash_cons]
  · unfold search_path_of
    rw [show (String.mk (List.replicate n '/')).data = List.replicate n '/' from rfl,
      segs_replicate]
    rfl

end RofiBookmarks
